import Mathlib

/-!
Shallow embedding of the gcal-webhook reconciliation core
(`src/app.py`, `src/airtable_request.py`, `src/calendar_request.py`).

Python dict values that the code compares are modelled by `Value`
(strings, numbers, `None`); Python dicts used as payload field maps are
modelled by insertion-ordered association lists (`Dict`).  Timestamp
parsing (the external `arrow` library) is abstracted as a parameter
`toSec : String → Int` giving epoch seconds; `timedelta.seconds` is the
sub-day remainder of the signed difference (Python semantics).  Network
calls are modelled by oracles: `store` for single-record GETs,
`createId` for the record id returned by a creation POST, and `flushOk`
for whether a batched PATCH succeeds.
-/

namespace GcalWebhook

/-- A scalar value in a Python dict: string, number, or `None`. -/
inductive Value where
  | vstr (s : String)
  | vnum (q : ℚ)
  | vnone
deriving DecidableEq, Repr

/-- A Python dict with string keys, as an insertion-ordered association list. -/
abbrev Dict : Type := List (String × Value)

/-- First value bound to `k`, if any (Python `d[k]` / `get_in`). -/
def Dict.find? (d : Dict) (k : String) : Option Value :=
  (List.find? (fun p => p.1 == k) d).map Prod.snd

/-- `get_in(d, [k], default)`: the value at `k`, or `default` when absent. -/
def Dict.getD (d : Dict) (k : String) (default : Value) : Value :=
  (d.find? k).getD default

/-- Python `d.update({k: v})`: replace the value at `k` in place if the key
exists, otherwise append the pair at the end. -/
def Dict.set (d : Dict) (k : String) (v : Value) : Dict :=
  if List.any d (fun p => p.1 == k) then
    List.map (fun p => if p.1 == k then (k, v) else p) d
  else
    d ++ [(k, v)]

/-- A Google Calendar event dict, restricted to the keys the code reads.
`none` models an absent key. -/
structure Event where
  id : Option String
  summary : Option String
  startDT : Option String
  endDT : Option String
  description : Option String
  status : Option String
  colorId : Option String
deriving DecidableEq, Repr

/-- An Airtable record as returned by `single_airtable_request(...).json()`:
only its `fields` sub-dict is read by the diff code. -/
structure AirRecord where
  fields : Dict
deriving DecidableEq, Repr

/-- An optional string as the Python value it denotes (`None` when absent). -/
def optStr : Option String → Value
  | some s => .vstr s
  | none => .vnone

/-- The space character, for Python `str.split(" ")`. -/
def spaceChar : Char := Char.ofNat 32

/-- Python `s.split(" ")` on the character list: split at every space,
keeping empty fragments; the result is never empty. -/
def splitSpaceList : List Char → List (List Char)
  | [] => [[]]
  | c :: cs =>
    let rest := splitSpaceList cs
    if c = spaceChar then [] :: rest
    else
      match rest with
      | [] => [[c]]
      | t :: ts => (c :: t) :: ts

/-- Python `s.split(" ")` on strings. -/
def pySplit (s : String) : List String :=
  (splitSpaceList s.data).map String.mk

/-- Python `s[0:n]` on strings. -/
def strTake (s : String) (n : Nat) : String :=
  String.mk (s.data.take n)

/-- `parse_event_description` (src/app.py): split the event description on
spaces; the first token is the embedded Airtable record id (empty string when
there is none), the second token, when present, is the source tag. -/
def parse_event_description (event : Event) : String × Option String :=
  let string_to_parse := pySplit (event.description.getD "")
  let airtable_record_id := string_to_parse.headD ""
  let source := (string_to_parse.drop 1).head?
  (airtable_record_id, source)

/-- `arrow.get(end) - arrow.get(start)` is a `timedelta`; its `.seconds`
attribute is the sub-day remainder of the signed difference in seconds
(Python normalises a timedelta so that `0 ≤ seconds < 86400`). -/
def tdSeconds (diff : Int) : Int := diff % 86400

/-- `parse_event_duration` (src/app.py): `(arrow.get(end) - arrow.get(start)).seconds / 3600`,
with `toSec` abstracting the arrow timestamp parse.  The division is written
with `mkRat` so that it evaluates in the kernel; `parse_event_duration_div`
below states the literal division form. -/
def parse_event_duration (toSec : String → Int) (event : Event) : ℚ :=
  let start := event.startDT.getD ""
  let e := event.endDT.getD ""
  mkRat (tdSeconds (toSec e - toSec start)) 3600

/-- The defining arithmetic of `parse_event_duration` in the source's shape:
the timedelta's `.seconds` component divided by `3600`. -/
theorem parse_event_duration_div (toSec : String → Int) (event : Event) :
    parse_event_duration toSec event =
      (tdSeconds (toSec (event.endDT.getD "") - toSec (event.startDT.getD "")) : ℚ) / 3600 := by
  unfold parse_event_duration
  rw [Rat.mkRat_eq_div]
  norm_num

/-- `create_payload_from_event` (src/app.py): the `fields` dict of the
Airtable creation payload built from an event. -/
def create_payload_from_event (toSec : String → Int) (event : Event) : Dict :=
  [("Name", optStr event.summary),
   ("duration", .vnum (parse_event_duration toSec event)),
   ("Deadline", .vstr (strTake (event.endDT.getD "") 10)),
   ("lastCalendarDeadline", .vstr (strTake (event.endDT.getD "") 10)),
   ("calendarEventId", optStr event.id)]

/-- `process_change` (src/app.py): if the calendar-side value differs from the
Airtable-side value, write the calendar value under each listed field name. -/
def process_change (update_fields : Dict) (calendar_feature airtable_feature : Value)
    (airtable_field_names : List String) : Dict :=
  if calendar_feature ≠ airtable_feature then
    airtable_field_names.foldl (fun d field => d.set field calendar_feature) update_fields
  else
    update_fields

/-- `process_deadline_change` (src/app.py). -/
def process_deadline_change (update_fields : Dict) (event : Event) (record : AirRecord) : Dict :=
  let calendar_datetime := strTake (event.endDT.getD "") 10
  let airtable_datetime := record.fields.getD "Deadline" (.vstr "")
  process_change update_fields (.vstr calendar_datetime) airtable_datetime
    ["Deadline", "lastCalendarDeadline"]

/-- `process_endtime_change` (src/app.py). -/
def process_endtime_change (update_fields : Dict) (event : Event) (record : AirRecord) : Dict :=
  let calendar_endtime := event.endDT.getD ""
  let airtable_endtime := record.fields.getD "endTime" (.vstr "")
  process_change update_fields (.vstr calendar_endtime) airtable_endtime ["endTime"]

/-- `process_duration_change` (src/app.py). -/
def process_duration_change (toSec : String → Int) (update_fields : Dict)
    (event : Event) (record : AirRecord) : Dict :=
  let calendar_duration := parse_event_duration toSec event
  let airtable_duration := record.fields.getD "duration" (.vnum 0)
  process_change update_fields (.vnum calendar_duration) airtable_duration ["Duration"]

/-- `process_name_change` (src/app.py). -/
def process_name_change (update_fields : Dict) (event : Event) (record : AirRecord) : Dict :=
  let calendar_name := optStr event.summary
  let airtable_name := record.fields.getD "name" (.vnum 0)
  process_change update_fields calendar_name airtable_name ["Name"]

/-- `GCAL_COLOR_MAPPING` (src/app.py): color code to status. -/
def GCAL_COLOR_MAPPING : List (String × String) :=
  [("5", "Done"), ("11", "Abandoned")]

/-- `transition_done_record` (src/app.py): when the event color maps to a
status and it differs from the record's status, set `Status` to the mapped
value and `lastStatus` to the literal `"Done"`. -/
def transition_done_record (update_fields : Dict) (event : Event) (record : AirRecord) : Dict :=
  let color_id := event.colorId.getD ""
  match GCAL_COLOR_MAPPING.lookup color_id with
  | some new_status =>
    let airtable_status := record.fields.getD "Status" (.vstr "")
    if Value.vstr new_status ≠ airtable_status then
      (update_fields.set "Status" (.vstr new_status)).set "lastStatus" (.vstr "Done")
    else
      update_fields
  | none => update_fields

/-- The five diff steps run in order on a fresh `update_fields` dict
(`process_event_change` lines 300–305 of src/app.py) — the spec's EventDiffer. -/
def event_diff (toSec : String → Int) (event : Event) (record : AirRecord) : Dict :=
  let update_fields : Dict := []
  let update_fields := process_deadline_change update_fields event record
  let update_fields := process_endtime_change update_fields event record
  let update_fields := process_duration_change toSec update_fields event record
  let update_fields := process_name_change update_fields event record
  transition_done_record update_fields event record

/-- `MAX_AIRTABLE_PATCH` (src/airtable_request.py). -/
def MAX_AIRTABLE_PATCH : Nat := 10

/-- One entry of the batched patch payload's `records` list:
`{"id": airtable_record_id, "fields": update_fields}`. -/
structure PatchRec where
  id : String
  fields : Dict
deriving DecidableEq, Repr

/-- The batching state: the records of the current payload, plus the log of
batches already sent over the network (each flush is one PATCH request). -/
structure BatchState where
  pending : List PatchRec
  flushed : List (List PatchRec)
deriving DecidableEq, Repr

/-- An error aborting the pass (a raised Python exception). -/
inductive Err where
  | flushErr
  | fetchErr
  | keyErr
  | attrErr
deriving DecidableEq, Repr

instance {ε : Type _} {α : Type _} [DecidableEq ε] [DecidableEq α] :
    DecidableEq (Except ε α) := fun a b =>
  match a, b with
  | .error e, .error f =>
    if h : e = f then .isTrue (by rw [h]) else .isFalse (fun hh => h (by cases hh; rfl))
  | .error _, .ok _ => .isFalse (fun hh => Except.noConfusion hh)
  | .ok _, .error _ => .isFalse (fun hh => Except.noConfusion hh)
  | .ok x, .ok y =>
    if h : x = y then .isTrue (by rw [h]) else .isFalse (fun hh => h (by cases hh; rfl))

/-- `update_payload_state` (src/airtable_request.py): if the payload holds at
least `MAX_AIRTABLE_PATCH` records, send it (which may fail) and reset it to
the empty template; otherwise leave it unchanged. -/
def update_payload_state (flushOk : List PatchRec → Bool) (s : BatchState) :
    Except Err BatchState :=
  if MAX_AIRTABLE_PATCH ≤ s.pending.length then
    if flushOk s.pending then
      .ok ⟨[], s.flushed ++ [s.pending]⟩
    else
      .error .flushErr
  else
    .ok s

/-- `send_nonempty_payload` (src/airtable_request.py): send the payload iff it
holds at least one record (the final drain of a page). -/
def send_nonempty_payload (flushOk : List PatchRec → Bool) (s : BatchState) :
    Except Err BatchState :=
  if 0 < s.pending.length then
    if flushOk s.pending then
      .ok ⟨[], s.flushed ++ [s.pending]⟩
    else
      .error .flushErr
  else
    .ok s

/-- What one loop iteration of `process_event_change` did besides batching:
which record ids it fetched with `single_airtable_request`, and which creation
payloads it POSTed via `process_new_event`. -/
structure StepLog where
  lookups : List String
  creations : List Dict
deriving DecidableEq, Repr

/-- `patch_event` (src/calendar_request.py), specialised to the arguments
`process_new_event` passes: with a falsy event id it returns without calling
the API; otherwise it patches the event's description to
`airtable_record_id + " webhook"`. -/
def patch_event (event_id : Option String) (airtable_record_id : String) (ev : Event) : Event :=
  match event_id with
  | none => ev
  | some eid =>
    if eid = "" then ev
    else { ev with description := some (airtable_record_id ++ " webhook") }

/-- `process_new_event` (src/app.py): skip events whose status (defaulted to
`"cancelled"`) is `"cancelled"`; otherwise POST one creation payload, read the
new record id off the response (modelled by `createId`), and patch the event's
description with it.  Returns the list of posted creation payloads and the
calendar's event after the patch. -/
def process_new_event (toSec : String → Int) (createId : Dict → String) (ev : Event) :
    List Dict × Event :=
  if ev.status.getD "cancelled" = "cancelled" then
    ([], ev)
  else
    let payload := create_payload_from_event toSec ev
    let airtable_record_id := createId payload
    let calendar_event_id := ev.id
    ([payload], patch_event calendar_event_id airtable_record_id ev)

/-- One iteration of the `for event in events['items']` loop of
`process_event_change` (src/app.py): run `update_payload_state`, parse the
description; with no embedded record id route to `process_new_event`
(calendar-side effects are not tracked here, only the posted creations);
otherwise fetch the record, run the five diff steps, and append a patch record
when the diff is non-empty. -/
def processOneEvent (toSec : String → Int) (store : String → AirRecord)
    (createId : Dict → String) (flushOk : List PatchRec → Bool)
    (s : BatchState) (ev : Event) : Except Err (BatchState × StepLog) :=
  match update_payload_state flushOk s with
  | .error e => .error e
  | .ok s1 =>
    let airtable_record_id := (parse_event_description ev).1
    if airtable_record_id = "" then
      .ok (s1, ⟨[], (process_new_event toSec createId ev).1⟩)
    else
      let record := store airtable_record_id
      let update_fields := event_diff toSec ev record
      if update_fields = [] then
        .ok (s1, ⟨[airtable_record_id], []⟩)
      else
        .ok ({ s1 with pending := s1.pending ++ [⟨airtable_record_id, update_fields⟩] },
             ⟨[airtable_record_id], []⟩)

/-- The whole `for` loop of `process_event_change`, threading the batch state
and aborting on the first raised error. -/
def runEvents (toSec : String → Int) (store : String → AirRecord)
    (createId : Dict → String) (flushOk : List PatchRec → Bool) :
    BatchState → List Event → Except Err BatchState
  | s, [] => .ok s
  | s, ev :: rest =>
    match processOneEvent toSec store createId flushOk s ev with
    | .error e => .error e
    | .ok (s1, _log) => runEvents toSec store createId flushOk s1 rest

/-- `process_event_change` (src/app.py): with a truthy `items` list, start from
the empty payload template, process every event, then drain with
`send_nonempty_payload`. -/
def process_event_change (toSec : String → Int) (store : String → AirRecord)
    (createId : Dict → String) (flushOk : List PatchRec → Bool) :
    Option (List Event) → Except Err BatchState
  | none => .ok ⟨[], []⟩
  | some evs =>
    if evs.isEmpty then .ok ⟨[], []⟩
    else
      match runEvents toSec store createId flushOk ⟨[], []⟩ evs with
      | .error e => .error e
      | .ok s => send_nonempty_payload flushOk s

/-- One page of `calendar.service.events().list(...)` output, restricted to the
keys `respond_webhook` reads (`none` models an absent key). -/
structure Page where
  items : Option (List Event)
  nextPageToken : Option String
  nextSyncToken : Option String
deriving Repr

/-- The paging loop of `respond_webhook` (src/app.py): each list element is the
outcome of one `events().list(...).execute()` call, consumed in order.  Every
fetched page is processed once; the loop continues while `nextPageToken` is
present, and on the last page reads `events['nextSyncToken']` (a `KeyError`
when absent).  Returns the new sync token or the first raised error. -/
def runPages (toSec : String → Int) (store : String → AirRecord)
    (createId : Dict → String) (flushOk : List PatchRec → Bool) :
    List (Except Err Page) → Except Err String
  | [] => .error .fetchErr
  | .error e :: _ => .error e
  | .ok p :: rest =>
    match process_event_change toSec store createId flushOk p.items with
    | .error e => .error e
    | .ok _ =>
      match p.nextPageToken with
      | some _ => runPages toSec store createId flushOk rest
      | none =>
        match p.nextSyncToken with
        | some tok => .ok tok
        | none => .error .keyErr

/-- `latest` of the Snapshot store: `query(Snapshot).order_by(id.desc()).first()`
is the most recently appended row. -/
def latest (snapshots : List String) : Option String :=
  snapshots.getLast?

/-- `respond_webhook` (src/app.py): read the latest sync token (an
`AttributeError` on an empty store), run the paging loop, and only when the
whole pass succeeded append the provider's `nextSyncToken` to the store.
Returns the store after the pass and the raised error, if any. -/
def respond_webhook (toSec : String → Int) (store : String → AirRecord)
    (createId : Dict → String) (flushOk : List PatchRec → Bool)
    (snapshots : List String) (fetches : List (Except Err Page)) :
    List String × Option Err :=
  match latest snapshots with
  | none => (snapshots, some .attrErr)
  | some _syncToken =>
    match runPages toSec store createId flushOk fetches with
    | .ok tok => (snapshots ++ [tok], none)
    | .error e => (snapshots, some e)

/-! ### Simple evaluation lemmas for `Dict` -/

theorem dict_set_nil (k : String) (v : Value) : Dict.set [] k v = [(k, v)] := rfl

theorem dict_find_nil (k : String) : Dict.find? [] k = none := rfl

/-! ### The spec's experiment for diff idempotence -/

/-- Running the full diff twice on the same `(event, record)` pair, each run
starting from a fresh empty `update_fields` dict, with no record-store
mutation between the two runs. -/
def runEventDifferTwice (toSec : String → Int) (event : Event) (record : AirRecord) :
    Dict × Dict :=
  let first := event_diff toSec event record
  let second := event_diff toSec event record
  (first, second)

/-! ### Claim theorems for the per-field diff rules -/

/-- C4: the mapping returned by `process_name_change` (from an empty
`update_fields`) binds `Name` to the event's title exactly when the title
differs from the record's stored name (with the source's default `0` for an
absent stored name), and has no `Name` entry otherwise. -/
theorem c4_name_change_iff (ev : Event) (r : AirRecord) :
    (process_name_change [] ev r).find? "Name" =
      (if optStr ev.summary ≠ r.fields.getD "name" (.vnum 0) then some (optStr ev.summary)
       else none) := by
  unfold process_name_change process_change
  by_cases h : optStr ev.summary ≠ r.fields.getD "name" (.vnum 0)
  · rw [if_pos h, if_pos h]
    rfl
  · rw [if_neg h, if_neg h]
    rfl

/-- C8: `process_deadline_change` (from an empty `update_fields`) adds both
`Deadline` and `lastCalendarDeadline`, set to the first 10 characters of the
event's end timestamp, exactly when that date differs from the record's stored
`Deadline`, and adds neither when they are equal; in particular, with event end
`2024-03-15T10:00:00Z` and record deadline `2024-03-14` both fields are set to
`2024-03-15`, and with record deadline `2024-03-15` the result is empty. -/
theorem c8_deadline_change_iff :
    (∀ (ev : Event) (r : AirRecord),
      process_deadline_change [] ev r =
        (if Value.vstr (strTake (ev.endDT.getD "") 10) ≠ r.fields.getD "Deadline" (.vstr "")
         then [("Deadline", .vstr (strTake (ev.endDT.getD "") 10)),
               ("lastCalendarDeadline", .vstr (strTake (ev.endDT.getD "") 10))]
         else [])) ∧
    process_deadline_change []
        ⟨some "e1", some "t", some "2024-03-15T08:00:00Z", some "2024-03-15T10:00:00Z",
         some "", some "confirmed", none⟩
        ⟨[("Deadline", .vstr "2024-03-14")]⟩ =
      [("Deadline", .vstr "2024-03-15"), ("lastCalendarDeadline", .vstr "2024-03-15")] ∧
    process_deadline_change []
        ⟨some "e1", some "t", some "2024-03-15T08:00:00Z", some "2024-03-15T10:00:00Z",
         some "", some "confirmed", none⟩
        ⟨[("Deadline", .vstr "2024-03-15")]⟩ = [] := by
  refine ⟨fun ev r => ?_, by decide, by decide⟩
  unfold process_deadline_change process_change
  by_cases h : Value.vstr (strTake (ev.endDT.getD "") 10) ≠ r.fields.getD "Deadline" (.vstr "")
  · rw [if_pos h, if_pos h]
    rfl
  · rw [if_neg h, if_neg h]

/-- C5: whenever the event's color code is in the two-entry color mapping and
the mapped status differs from the record's stored `Status`, the diff sets
`Status` to the mapped value and `lastStatus` to the literal `"Done"`,
whichever of the two statuses was mapped. -/
theorem c5_status_transition (ev : Event) (r : AirRecord) (st : String)
    (hc : GCAL_COLOR_MAPPING.lookup (ev.colorId.getD "") = some st)
    (hne : Value.vstr st ≠ r.fields.getD "Status" (.vstr "")) :
    transition_done_record [] ev r =
      [("Status", .vstr st), ("lastStatus", .vstr "Done")] := by
  unfold transition_done_record
  simp only [hc]
  rw [if_pos hne]
  rfl

/-- C5 witness: the claim's particular case — record status `""`, event color
`"11"` (mapped to `"Abandoned"`): the diff sets `Status = "Abandoned"` and
`lastStatus = "Done"`. -/
theorem c5_status_transition_witness :
    transition_done_record []
        ⟨some "e1", some "t", none, none, some "", some "confirmed", some "11"⟩
        ⟨[("Status", .vstr "")]⟩ =
      [("Status", .vstr "Abandoned"), ("lastStatus", .vstr "Done")] :=
  c5_status_transition
    ⟨some "e1", some "t", none, none, some "", some "confirmed", some "11"⟩
    ⟨[("Status", .vstr "")]⟩ "Abandoned" (by decide) (by decide)

/-- C9: running the full five-step diff twice on the same `(event, record)`
pair, each run starting from an empty mapping, yields the same field-update
mapping both times (the diff is a pure function of its inputs; nothing in the
source mutates the event or the record). -/
theorem c9_diff_idempotent (toSec : String → Int) (ev : Event) (r : AirRecord) :
    (runEventDifferTwice toSec ev r).1 = (runEventDifferTwice toSec ev r).2 := rfl

/-- C10: an event whose `status` key is absent is treated by
`process_new_event` exactly like a cancelled event: the `get_in` default
`"cancelled"` applies, so the function returns with no record created and the
event left unpatched. -/
theorem c10_absent_status_skipped (toSec : String → Int) (createId : Dict → String)
    (ev : Event) (h : ev.status = none) :
    process_new_event toSec createId ev = ([], ev) := by
  unfold process_new_event
  rw [h]
  rfl

/-- C10 witness: a concrete event with no `status` key is skipped whole. -/
theorem c10_absent_status_skipped_witness :
    process_new_event (fun _ => 0) (fun _ => "recNEW")
        ⟨some "e1", some "t", some "A", some "B", some "", none, none⟩ =
      ([], ⟨some "e1", some "t", some "A", some "B", some "", none, none⟩) :=
  c10_absent_status_skipped (fun _ => 0) (fun _ => "recNEW")
    ⟨some "e1", some "t", some "A", some "B", some "", none, none⟩ rfl

/-! ### C6: the duration arithmetic -/

/-- The claim's arithmetic, from its words: the sub-hour remainder of the
seconds elapsed between start and end, divided by 3600 (elapsed modulo 3600,
over 3600).  Stated only to be compared with `parse_event_duration`. -/
def parse_event_duration_subhour (toSec : String → Int) (event : Event) : ℚ :=
  mkRat ((toSec (event.endDT.getD "") - toSec (event.startDT.getD "")) % 3600) 3600

/-- A timestamp map under which the event below spans exactly 7200 seconds. -/
def toSecTwoHours : String → Int :=
  fun s => if s = "2024-03-15T10:00:00Z" then 7200 else 0

/-- A two-hour event with both timestamps present. -/
def evTwoHours : Event :=
  ⟨some "e1", some "t", some "2024-03-15T08:00:00Z", some "2024-03-15T10:00:00Z",
   some "", some "confirmed", none⟩

/-- C6 counterexample: on a two-hour event, `parse_event_duration` returns `2`
(the full two hours), while the sub-hour remainder of the elapsed seconds over
3600 is `0` — so the function does not return the sub-hour remainder. -/
theorem c6_counterexample :
    parse_event_duration toSecTwoHours evTwoHours = 2 ∧
    parse_event_duration_subhour toSecTwoHours evTwoHours = 0 ∧
    parse_event_duration toSecTwoHours evTwoHours ≠
      parse_event_duration_subhour toSecTwoHours evTwoHours := by
  decide

/-- C6 amended: for every event with start and end timestamps,
`parse_event_duration` returns the sub-day remainder of the elapsed seconds
(the Python timedelta's `.seconds`, elapsed modulo 86400) divided by 3600:
whole elapsed days are dropped, hours within the day are fully counted. -/
theorem c6_duration_subday (toSec : String → Int) (ev : Event) (s e : String)
    (hs : ev.startDT = some s) (he : ev.endDT = some e) :
    parse_event_duration toSec ev = (((toSec e - toSec s) % 86400 : Int) : ℚ) / 3600 := by
  rw [parse_event_duration_div, hs, he]
  rfl

/-- C6 witness: the amended statement evaluated on the two-hour event. -/
theorem c6_duration_subday_witness :
    evTwoHours.startDT = some "2024-03-15T08:00:00Z" ∧
    evTwoHours.endDT = some "2024-03-15T10:00:00Z" ∧
    parse_event_duration toSecTwoHours evTwoHours =
      (((toSecTwoHours "2024-03-15T10:00:00Z" - toSecTwoHours "2024-03-15T08:00:00Z")
          % 86400 : Int) : ℚ) / 3600 :=
  ⟨rfl, rfl,
   c6_duration_subday toSecTwoHours evTwoHours "2024-03-15T08:00:00Z" "2024-03-15T10:00:00Z"
     rfl rfl⟩

/-! ### C7: new-event creation round trip -/

/-- `splitSpaceList` never returns the empty list. -/
theorem splitSpaceList_ne_nil (l : List Char) : splitSpaceList l ≠ [] := by
  cases l with
  | nil => simp [splitSpaceList]
  | cons c cs =>
    simp only [splitSpaceList]
    by_cases h : c = spaceChar
    · simp [h]
    · simp only [if_neg h]
      cases hr : splitSpaceList cs <;> simp

/-- Splitting `xs ++ space :: ys` when `xs` holds no space yields `xs` as the
first fragment. -/
theorem splitSpaceList_append (xs ys : List Char) (h : spaceChar ∉ xs) :
    splitSpaceList (xs ++ spaceChar :: ys) = xs :: splitSpaceList ys := by
  induction xs with
  | nil => simp [splitSpaceList]
  | cons c cs ih =>
    have hc : ¬ c = spaceChar := fun hh => h (hh ▸ List.mem_cons_self c cs)
    have hcs : spaceChar ∉ cs := fun hh => h (List.mem_cons_of_mem _ hh)
    simp only [List.cons_append, splitSpaceList, if_neg hc]
    rw [List.append_eq, ih hcs]

/-- The first space-separated token of `rid ++ " webhook"` is `rid`, for a
space-free `rid`. -/
theorem pySplit_head_webhook (rid : String) (h : spaceChar ∉ rid.data) :
    (pySplit (rid ++ " webhook")).headD "" = rid := by
  have hd : (rid ++ " webhook").data = rid.data ++ (spaceChar :: "webhook".data) := by
    have h1 : (rid ++ " webhook").data = rid.data ++ (" webhook" : String).data := rfl
    have h2 : (" webhook" : String).data = spaceChar :: "webhook".data := by decide
    rw [h1, h2]
  unfold pySplit
  rw [hd, splitSpaceList_append rid.data _ h]
  rfl

/-- An event with empty description whose status is `"cancelled"`. -/
def evEmptyCancelled : Event :=
  ⟨some "e1", some "t", some "2024-03-15T08:00:00Z", some "2024-03-15T10:00:00Z",
   some "", some "cancelled", none⟩

/-- C7 counterexample: `process_new_event` on a cancelled event with empty
description creates no record at all — so "for every event with empty
description, exactly one record is created" fails as stated. -/
theorem c7_counterexample :
    evEmptyCancelled.description = some "" ∧
    (process_new_event toSecTwoHours (fun _ => "recNEW") evEmptyCancelled).1.length ≠ 1 := by
  decide

/-- C7 amended: for every event with empty (or absent) description whose
status is present and not `"cancelled"` and whose id is present and non-empty,
`process_new_event` POSTs exactly one creation payload, and afterwards the
event's description carries the provider-returned record id as its first
space-separated token (for a space-free record id). -/
theorem c7_creation_roundtrip (toSec : String → Int) (createId : Dict → String)
    (ev : Event) (st eid : String)
    (hst : ev.status = some st) (hstne : st ≠ "cancelled")
    (hid : ev.id = some eid) (hidne : eid ≠ "")
    (hns : spaceChar ∉ (createId (create_payload_from_event toSec ev)).data) :
    (process_new_event toSec createId ev).1 = [create_payload_from_event toSec ev] ∧
    (pySplit ((process_new_event toSec createId ev).2.description.getD "")).headD "" =
      createId (create_payload_from_event toSec ev) := by
  unfold process_new_event
  rw [hst]
  simp only [Option.getD_some, if_neg hstne]
  refine ⟨trivial, ?_⟩
  unfold patch_event
  rw [hid]
  simp only [if_neg hidne, Option.getD_some]
  exact pySplit_head_webhook _ hns

/-- C7 witness: a concrete non-cancelled event with empty description and a
non-empty id; one record is created and its id becomes the first token of the
patched description. -/
theorem c7_creation_roundtrip_witness :
    (process_new_event toSecTwoHours (fun _ => "recNEW") evTwoHours).1 =
      [create_payload_from_event toSecTwoHours evTwoHours] ∧
    (pySplit ((process_new_event toSecTwoHours (fun _ => "recNEW")
        evTwoHours).2.description.getD "")).headD "" = "recNEW" :=
  c7_creation_roundtrip toSecTwoHours (fun _ => "recNEW") evTwoHours "confirmed" "e1"
    rfl (by decide) rfl (by decide) (by decide)

/-! ### C1: cancelled-event routing -/

/-- Every record a batch state has accepted so far: already flushed batches in
order, followed by the records still pending. -/
def recordsOf (s : BatchState) : List PatchRec :=
  s.flushed.flatten ++ s.pending

/-- A successful `update_payload_state` call moves records between `pending`
and `flushed` but neither adds, drops, nor duplicates any. -/
theorem update_payload_state_records (flushOk : List PatchRec → Bool)
    (s s1 : BatchState) (h : update_payload_state flushOk s = .ok s1) :
    recordsOf s1 = recordsOf s := by
  unfold update_payload_state at h
  by_cases hlen : MAX_AIRTABLE_PATCH ≤ s.pending.length
  · rw [if_pos hlen] at h
    by_cases hok : flushOk s.pending = true
    · rw [if_pos hok] at h
      injection h with h1
      rw [← h1]
      simp [recordsOf]
    · rw [if_neg hok] at h
      cases h
  · rw [if_neg hlen] at h
    injection h with h1
    rw [h1]

/-- A store in which every record has an empty `fields` dict. -/
def storeEmptyFields : String → AirRecord := fun _ => ⟨[]⟩

/-- A cancelled event whose description embeds a record id. -/
def evCancelledLinked : Event :=
  ⟨some "e1", none, some "2024-03-15T08:00:00Z", some "2024-03-15T10:00:00Z",
   some "rec1 webhook", some "cancelled", none⟩

/-- C1 counterexample: a cancelled event whose description embeds a record id
is not skipped by one step of `process_event_change`: the step fetches record
`rec1` (one record lookup) and even appends an update for it to the batch
payload. -/
theorem c1_counterexample :
    evCancelledLinked.status = some "cancelled" ∧
    (processOneEvent toSecTwoHours storeEmptyFields (fun _ => "recNEW") (fun _ => true)
        ⟨[], []⟩ evCancelledLinked).map (fun x => x.2.lookups) = .ok ["rec1"] ∧
    (processOneEvent toSecTwoHours storeEmptyFields (fun _ => "recNEW") (fun _ => true)
        ⟨[], []⟩ evCancelledLinked).map (fun x => x.1.pending.length) = .ok 1 := by
  decide

/-- C1 amended: a cancelled event is skipped — no record lookup, no creation
POST, and nothing added to the batch payload — only when its description
carries no embedded record id (its first space-separated token is empty, as it
is for the stub events the provider sends for deletions); the skip happens in
`process_new_event`, which all id-less events are routed to. -/
theorem c1_cancelled_unlinked_skip (toSec : String → Int) (store : String → AirRecord)
    (createId : Dict → String) (flushOk : List PatchRec → Bool)
    (s s1 : BatchState) (log : StepLog) (ev : Event)
    (hst : ev.status = some "cancelled")
    (hdesc : (parse_event_description ev).1 = "")
    (hok : processOneEvent toSec store createId flushOk s ev = .ok (s1, log)) :
    log.lookups = [] ∧ log.creations = [] ∧ recordsOf s1 = recordsOf s := by
  unfold processOneEvent at hok
  cases hup : update_payload_state flushOk s with
  | error e =>
    rw [hup] at hok
    cases hok
  | ok s2 =>
    rw [hup] at hok
    simp only [hdesc, if_pos] at hok
    unfold process_new_event at hok
    rw [hst] at hok
    simp only [Option.getD_some, if_pos] at hok
    injection hok with hok1
    injection hok1 with hs hl
    subst hs
    subst hl
    exact ⟨rfl, rfl, update_payload_state_records flushOk s s2 hup⟩

/-- C1 witness: one step on a concrete cancelled, id-less event does no
lookup, no creation, and leaves the accepted-record list unchanged. -/
theorem c1_cancelled_unlinked_skip_witness :
    evEmptyCancelled.status = some "cancelled" ∧
    (parse_event_description evEmptyCancelled).1 = "" ∧
    ((StepLog.mk [] []).lookups = [] ∧ (StepLog.mk [] []).creations = [] ∧
      recordsOf ⟨[], []⟩ = recordsOf ⟨[], []⟩) :=
  ⟨rfl, by decide,
   c1_cancelled_unlinked_skip toSecTwoHours storeEmptyFields (fun _ => "recNEW")
     (fun _ => true) ⟨[], []⟩ ⟨[], []⟩ ⟨[], []⟩ evEmptyCancelled rfl (by decide) (by decide)⟩

/-! ### C3: no cursor advance on a failed pass -/

/-- C3: whenever a pass of `respond_webhook` raises any error — a failed page
fetch, a failed batch flush, a missing `nextSyncToken`, or an empty snapshot
store — no new sync token is appended: the store's latest cursor after the
pass equals its latest cursor before it. -/
theorem c3_cursor_unchanged_on_failure (toSec : String → Int) (store : String → AirRecord)
    (createId : Dict → String) (flushOk : List PatchRec → Bool)
    (snapshots : List String) (fetches : List (Except Err Page)) (e : Err)
    (h : (respond_webhook toSec store createId flushOk snapshots fetches).2 = some e) :
    latest (respond_webhook toSec store createId flushOk snapshots fetches).1 =
      latest snapshots := by
  unfold respond_webhook at h ⊢
  cases hls : latest snapshots with
  | none => exact hls
  | some tok0 =>
    cases hrp : runPages toSec store createId flushOk fetches with
    | ok tok =>
      rw [hls, hrp] at h
      exact Option.noConfusion h
    | error err =>
      exact hls

/-- C3 witness: a pass whose very first page fetch fails leaves the snapshot
store's latest cursor untouched. -/
theorem c3_cursor_unchanged_on_failure_witness :
    (respond_webhook toSecTwoHours storeEmptyFields (fun _ => "recNEW") (fun _ => true)
        ["tok0"] [.error .fetchErr]).2 = some .fetchErr ∧
    latest (respond_webhook toSecTwoHours storeEmptyFields (fun _ => "recNEW") (fun _ => true)
        ["tok0"] [.error .fetchErr]).1 = latest ["tok0"] :=
  ⟨by decide,
   c3_cursor_unchanged_on_failure toSecTwoHours storeEmptyFields (fun _ => "recNEW")
     (fun _ => true) ["tok0"] [.error .fetchErr] .fetchErr (by decide)⟩

/-! ### C2: batch capacity and exactly-once flushing

With an always-succeeding network (`flushOk = fun _ => true`) each loop
iteration of `process_event_change` is the pure state transformer `pureStep`,
and the final drain is `drainStep`; the invariant proof runs over those. -/

/-- `update_payload_state` when the flush cannot fail. -/
def pureFlushStep (s : BatchState) : BatchState :=
  if MAX_AIRTABLE_PATCH ≤ s.pending.length then ⟨[], s.flushed ++ [s.pending]⟩ else s

/-- The record one loop iteration appends for an event: `none` for the
new-event route (empty first description token) and for an empty diff,
otherwise the patch record with the embedded id and the diff. -/
def eventAppend (toSec : String → Int) (store : String → AirRecord) (ev : Event) :
    Option PatchRec :=
  let airtable_record_id := (parse_event_description ev).1
  if airtable_record_id = "" then none
  else
    let u := event_diff toSec ev (store airtable_record_id)
    if u = [] then none else some ⟨airtable_record_id, u⟩

/-- One loop iteration of `process_event_change` as a pure state transformer
(valid when flushes succeed). -/
def pureStep (toSec : String → Int) (store : String → AirRecord)
    (s : BatchState) (ev : Event) : BatchState :=
  let s1 := pureFlushStep s
  match eventAppend toSec store ev with
  | none => s1
  | some r => { s1 with pending := s1.pending ++ [r] }

/-- The log `processOneEvent` produces for an event. -/
def stepLogOf (toSec : String → Int) (createId : Dict → String) (ev : Event) : StepLog :=
  if (parse_event_description ev).1 = "" then ⟨[], (process_new_event toSec createId ev).1⟩
  else ⟨[(parse_event_description ev).1], []⟩

theorem update_payload_state_true (s : BatchState) :
    update_payload_state (fun _ => true) s = .ok (pureFlushStep s) := by
  unfold update_payload_state pureFlushStep
  split <;> rfl

theorem send_nonempty_payload_true (s : BatchState) :
    send_nonempty_payload (fun _ => true) s =
      .ok (if 0 < s.pending.length then ⟨[], s.flushed ++ [s.pending]⟩ else s) := by
  unfold send_nonempty_payload
  split <;> rfl

theorem processOneEvent_true (toSec : String → Int) (store : String → AirRecord)
    (createId : Dict → String) (s : BatchState) (ev : Event) :
    processOneEvent toSec store createId (fun _ => true) s ev =
      .ok (pureStep toSec store s ev, stepLogOf toSec createId ev) := by
  unfold processOneEvent pureStep eventAppend stepLogOf
  rw [update_payload_state_true]
  by_cases hrid : (parse_event_description ev).1 = ""
  · simp [hrid]
  · by_cases hu : event_diff toSec ev (store (parse_event_description ev).1) = []
    · simp [hrid, hu]
    · simp [hrid, hu]

theorem runEvents_true (toSec : String → Int) (store : String → AirRecord)
    (createId : Dict → String) :
    ∀ (evs : List Event) (s : BatchState),
      runEvents toSec store createId (fun _ => true) s evs =
        .ok (List.foldl (pureStep toSec store) s evs)
  | [], _ => rfl
  | ev :: rest, s => by
    unfold runEvents
    rw [processOneEvent_true]
    exact runEvents_true toSec store createId rest (pureStep toSec store s ev)

theorem pureFlushStep_records (s : BatchState) :
    recordsOf (pureFlushStep s) = recordsOf s := by
  unfold pureFlushStep recordsOf
  split
  · simp
  · rfl

theorem pureStep_records (toSec : String → Int) (store : String → AirRecord)
    (s : BatchState) (ev : Event) :
    recordsOf (pureStep toSec store s ev) =
      recordsOf s ++ (eventAppend toSec store ev).toList := by
  unfold pureStep
  cases h : eventAppend toSec store ev with
  | none => simp [pureFlushStep_records]
  | some r =>
    have hfl := pureFlushStep_records s
    unfold recordsOf at hfl ⊢
    rw [← List.append_assoc, hfl]
    simp

theorem pureStep_pending_le (toSec : String → Int) (store : String → AirRecord)
    (s : BatchState) (ev : Event) (h : s.pending.length ≤ MAX_AIRTABLE_PATCH) :
    (pureStep toSec store s ev).pending.length ≤ MAX_AIRTABLE_PATCH := by
  unfold pureStep pureFlushStep MAX_AIRTABLE_PATCH at *
  by_cases hc : 10 ≤ s.pending.length
  · cases eventAppend toSec store ev <;> simp [hc]
  · cases eventAppend toSec store ev <;> simp [hc] <;> omega

theorem pureStep_flushed_le (toSec : String → Int) (store : String → AirRecord)
    (s : BatchState) (ev : Event) (hp : s.pending.length ≤ MAX_AIRTABLE_PATCH)
    (hf : ∀ b ∈ s.flushed, b.length ≤ MAX_AIRTABLE_PATCH) :
    ∀ b ∈ (pureStep toSec store s ev).flushed, b.length ≤ MAX_AIRTABLE_PATCH := by
  unfold pureStep pureFlushStep
  by_cases hc : MAX_AIRTABLE_PATCH ≤ s.pending.length
  · cases eventAppend toSec store ev <;>
      simp only [hc, if_pos] <;>
      intro b hb <;>
      rcases List.mem_append.mp hb with hb1 | hb2
    · exact hf b hb1
    · rw [List.mem_singleton.mp hb2]; exact hp
    · exact hf b hb1
    · rw [List.mem_singleton.mp hb2]; exact hp
  · cases eventAppend toSec store ev <;> simp only [hc, if_neg, not_false_eq_true] <;> exact hf

theorem foldl_pureStep_inv (toSec : String → Int) (store : String → AirRecord) :
    ∀ (evs : List Event) (s : BatchState),
      s.pending.length ≤ MAX_AIRTABLE_PATCH →
      (∀ b ∈ s.flushed, b.length ≤ MAX_AIRTABLE_PATCH) →
      (List.foldl (pureStep toSec store) s evs).pending.length ≤ MAX_AIRTABLE_PATCH ∧
      (∀ b ∈ (List.foldl (pureStep toSec store) s evs).flushed,
        b.length ≤ MAX_AIRTABLE_PATCH) ∧
      recordsOf (List.foldl (pureStep toSec store) s evs) =
        recordsOf s ++ evs.filterMap (eventAppend toSec store)
  | [], s, hp, hf => ⟨hp, hf, by simp⟩
  | ev :: rest, s, hp, hf => by
    simp only [List.foldl_cons, List.filterMap_cons]
    obtain ⟨h1, h2, h3⟩ :=
      foldl_pureStep_inv toSec store rest (pureStep toSec store s ev)
        (pureStep_pending_le toSec store s ev hp)
        (pureStep_flushed_le toSec store s ev hp hf)
    refine ⟨h1, h2, ?_⟩
    rw [h3, pureStep_records]
    cases eventAppend toSec store ev <;> simp

/-- C2: over any page of events processed by `process_event_change` with all
flushes succeeding, every batched request (each element of `flushed`, from the
capacity flushes and the final drain) carries at most `MAX_AIRTABLE_PATCH = 10`
records, nothing stays pending, and the concatenation of all flushed batches
is exactly the per-event appends in order — every appended record is sent in
exactly one request, none duplicated, none dropped. -/
theorem c2_batch_capacity_exactly_once (toSec : String → Int) (store : String → AirRecord)
    (createId : Dict → String) (evs : List Event) :
    ∃ s : BatchState,
      process_event_change toSec store createId (fun _ => true) (some evs) = .ok s ∧
      s.pending = [] ∧
      (∀ b ∈ s.flushed, b.length ≤ MAX_AIRTABLE_PATCH) ∧
      s.flushed.flatten = evs.filterMap (eventAppend toSec store) := by
  cases evs with
  | nil =>
    refine ⟨⟨[], []⟩, rfl, rfl, ?_, rfl⟩
    intro b hb
    cases hb
  | cons ev rest =>
    simp only [process_event_change, List.isEmpty_cons, Bool.false_eq_true, if_false]
    rw [runEvents_true]
    show ∃ s : BatchState,
      send_nonempty_payload (fun _ => true)
          (List.foldl (pureStep toSec store) ⟨[], []⟩ (ev :: rest)) = .ok s ∧
      s.pending = [] ∧
      (∀ b ∈ s.flushed, b.length ≤ MAX_AIRTABLE_PATCH) ∧
      s.flushed.flatten = List.filterMap (eventAppend toSec store) (ev :: rest)
    obtain ⟨hp, hf, hr⟩ :=
      foldl_pureStep_inv toSec store (ev :: rest) ⟨[], []⟩ (by simp [MAX_AIRTABLE_PATCH])
        (by intro b hb; cases hb)
    rw [send_nonempty_payload_true]
    set s1 := List.foldl (pureStep toSec store) ⟨[], []⟩ (ev :: rest) with hs1
    by_cases hne : 0 < s1.pending.length
    · refine ⟨⟨[], s1.flushed ++ [s1.pending]⟩, by rw [if_pos hne], rfl, ?_, ?_⟩
      · intro b hb
        rcases List.mem_append.mp hb with hb1 | hb2
        · exact hf b hb1
        · rw [List.mem_singleton.mp hb2]; exact hp
      · have : recordsOf s1 = List.filterMap (eventAppend toSec store) (ev :: rest) := by
          rw [hr]; rfl
        unfold recordsOf at this
        rw [← this]
        simp
    · refine ⟨s1, by rw [if_neg hne], ?_, hf, ?_⟩
      · exact List.eq_nil_of_length_eq_zero (Nat.eq_zero_of_not_pos hne)
      · have hrec : recordsOf s1 = List.filterMap (eventAppend toSec store) (ev :: rest) := by
          rw [hr]; rfl
        have hpend : s1.pending = [] :=
          List.eq_nil_of_length_eq_zero (Nat.eq_zero_of_not_pos hne)
        unfold recordsOf at hrec
        rw [hpend, List.append_nil] at hrec
        exact hrec

end GcalWebhook
